import Mathlib

/-!
Shallow embedding of the "talking character" demo repository
(backend relay in `server` plus the front-end controllers
`TTSController`, `ConversationController`, `HeyGenController`) and
proofs of the spec claims about it.

Conventions used throughout:
* JavaScript strings are Lean `String`s, processed as their
  code-point lists (`String.data`), matching `/u`-flagged regexes.
* `undefined`/`null`/missing JSON fields are `Option.none`.
* Asynchronous vendor calls are oracles passed in as explicit
  parameters (success / failure outcome values).
* Mutable controller objects are explicit state records; a method is
  a function from the state (plus its arguments and oracles) to the
  updated state and its return value.
-/

/-- The character class of JavaScript's `\s` (as used by the
`split(/\s+/)` and `replace(/\s+/g, ' ')` regexes in the source):
ASCII whitespace, NBSP, the Unicode space separators, line/paragraph
separators and the BOM. -/
def isWsChar (c : Char) : Bool :=
  c = ' ' || c = '\t' || c = '\n' || c = '\r' || c = '\x0b' || c = '\x0c' ||
  c.toNat = 0xa0 || c.toNat = 0x1680 ||
  (0x2000 ≤ c.toNat && c.toNat ≤ 0x200a) ||
  c.toNat = 0x2028 || c.toNat = 0x2029 || c.toNat = 0x202f ||
  c.toNat = 0x205f || c.toNat = 0x3000 || c.toNat = 0xfeff

/-- Worker for `splitWs`.  `cur` is the (reversed) token being built,
`inWs` records whether the previous character belonged to a whitespace
run (so that a whole run produces a single separation).  Mirrors the
semantics of JavaScript `String.prototype.split(/\s+/)`: a leading
whitespace run yields an empty first token and a trailing run yields
an empty last token. -/
def splitWsAux (cur : List Char) (inWs : Bool) : List Char → List String
  | [] => [String.mk cur.reverse]
  | c :: rest =>
    if isWsChar c then
      if inWs then splitWsAux cur true rest
      else String.mk cur.reverse :: splitWsAux [] true rest
    else splitWsAux (c :: cur) false rest

/-- `text.split(/\s+/)` from the source (`server`, word truncation
helper). -/
def splitWs (text : String) : List String :=
  splitWsAux [] false text.data

/-- `truncateToMaxWords(text, maxWords)` from the backend server:
`text.split(/\s+/)`, return `text` unchanged when the token count is
within the bound, otherwise the first `maxWords` tokens joined by
single spaces with `'...'` appended. -/
def truncateToMaxWords (text : String) (maxWords : Nat) : String :=
  let words := splitWs text
  if words.length ≤ maxWords then text
  else String.intercalate " " (words.take maxWords) ++ "..."

/-- Spec-side notion of "the words of `text`" used by claim C1: the
maximal non-empty runs of non-whitespace characters, i.e. the
whitespace-split tokens with empty boundary tokens discarded. -/
def specWords (text : String) : List String :=
  (splitWs text).filter (fun w => w ≠ "")

/-- C1 counterexample: `"a "` has exactly one word, so the claim says
`truncateToMaxWords "a " 1` returns the text unchanged; the code
counts the empty token produced by the trailing space, decides the
bound is exceeded, and returns `"a..."` instead. -/
theorem C1_counterexample :
    (specWords "a ").length ≤ 1 ∧ truncateToMaxWords "a " 1 ≠ "a " ∧
    truncateToMaxWords "a " 1 = "a..." := by decide

/-- C1 (amended): for every text whose whitespace-split token list
contains no empty token — equivalently, every non-empty text with no
leading or trailing whitespace — `truncateToMaxWords text k` returns
`text` unchanged when `text` has at most `k` words, and otherwise the
first `k` words joined by single spaces with a trailing `"..."`. -/
theorem C1_truncateToMaxWords_amended (text : String) (k : Nat)
    (h : ∀ w ∈ splitWs text, w ≠ "") :
    truncateToMaxWords text k =
      if (specWords text).length ≤ k then text
      else String.intercalate " " ((specWords text).take k) ++ "..." := by
  have hw : specWords text = splitWs text := by
    simp only [specWords]
    exact List.filter_eq_self.mpr (fun a ha => by simpa using h a ha)
  rw [hw]; rfl

/-- Witness for C1 (amended) at `text = "a b c"`, `k = 2`. -/
theorem C1_witness :
    (∀ w ∈ splitWs "a b c", w ≠ "") ∧
    truncateToMaxWords "a b c" 2 =
      (if (specWords "a b c").length ≤ 2 then "a b c"
       else String.intercalate " " ((specWords "a b c").take 2) ++ "...") :=
  ⟨by decide, C1_truncateToMaxWords_amended "a b c" 2 (by decide)⟩

/-- A conversation `Message` as built by
`ConversationController.addToHistory`: `{role, content, timestamp}`. -/
structure Message where
  role : String
  content : String
  timestamp : String
deriving DecidableEq, Repr

/-- `CONFIG.UI.maxHistoryMessages` from `config.js`. -/
def maxHistoryMessages : Nat := 50

/-- `ConversationController.addToHistory(role, content)`: push the new
message, then trim with `slice(-CONFIG.UI.maxHistoryMessages)` when the
length exceeds the bound (keeping the most recent entries).  The
timestamp (`new Date().toISOString()`) is passed in explicitly. -/
def addToHistory (history : List Message) (role content timestamp : String) :
    List Message :=
  let h := history ++ [{ role := role, content := content, timestamp := timestamp }]
  if maxHistoryMessages < h.length then h.drop (h.length - maxHistoryMessages) else h

/-- C2: after `addToHistory` the history length is at most
`maxHistoryMessages`; the result has length `min (old + 1) N` and is a
suffix of the old history with the new message appended, so the
retained entries are exactly the most recent ones in original order
(FIFO trim). -/
theorem C2_addToHistory_bounded (history : List Message)
    (role content ts : String) :
    (addToHistory history role content ts).length ≤ maxHistoryMessages ∧
    (addToHistory history role content ts).length =
      min (history.length + 1) maxHistoryMessages ∧
    addToHistory history role content ts <:+
      history ++ [{ role := role, content := content, timestamp := ts }] := by
  simp only [addToHistory]
  split
  next hc =>
    refine ⟨?_, ?_, List.drop_suffix _ _⟩
    · simp only [List.length_drop]
      simp only [List.length_append, List.length_cons, List.length_nil] at hc ⊢
      omega
    · simp only [List.length_drop]
      simp only [List.length_append, List.length_cons, List.length_nil] at hc ⊢
      omega
  next hc =>
    refine ⟨?_, ?_, List.suffix_refl _⟩
    · simp only [List.length_append, List.length_cons, List.length_nil] at hc ⊢
      omega
    · simp only [List.length_append, List.length_cons, List.length_nil] at hc ⊢
      omega

/-- The five in-character fallback lines of
`ConversationController.getFallbackResponse` (non-ASCII characters of
the source written as escapes). -/
def fallbackResponses : List String :=
  [ "Ah, the island breeze must have scrambled my thoughts! Could you say that again, friend? \uf8ff\u00fc\u00e5\u00a5",
    "Hmm, the coconuts are interfering with my thinking today. Let me ponder that one... \uf8ff\u00fc\u2022\u2022",
    "The waves are a bit loud right now! But I\u0027m always happy to chat. What\u0027s on your mind?",
    "My tropical brain needs a moment - the sun is particularly bright today! \u201a\u00f2\u00c4\u00d4\u220f\u00e8",
    "Interesting question! The ocean seems to have washed away my answer. Care to try again?" ]

/-- `getFallbackResponse(userMessage)`: picks
`fallbackResponses[Math.floor(Math.random() * length)]`; the random
draw is modelled by an explicit `rand` with index `rand % length`.
The `userMessage` argument is unused, as in the source. -/
def getFallbackResponse (userMessage : String) (rand : Nat) : String :=
  fallbackResponses.getD (rand % fallbackResponses.length) ""

/-- Outcome oracle for one call of the `/api/chat` relay as seen by
`callClaudeAPI`: either the parsed `data.response`, or any failure
(non-ok status, network error, JSON error) together with the random
draw used by the fallback pick. -/
inductive RelayOutcome where
  | ok (reply : String)
  | fail (rand : Nat)
deriving DecidableEq, Repr

/-- `ConversationController.callClaudeAPI(messages)`: on success
returns `data.response`; on any error returns
`getFallbackResponse(messages[messages.length - 1]?.content || '')`.
It never throws. -/
def callClaudeAPI (messages : List (String × String))
    (outcome : RelayOutcome) : String :=
  match outcome with
  | RelayOutcome.ok reply => reply
  | RelayOutcome.fail rand =>
      getFallbackResponse (((messages.getLast?).map (fun m => m.2)).getD "") rand

/-- The mutable state of a `ConversationController`. -/
structure ConvState where
  conversationHistory : List Message
  isProcessing : Bool
deriving DecidableEq, Repr

/-- Result of one `sendMessage` call: `busy` is the
`'Already processing a message'` rejection, `replied` the resolved
reply, `error` an exception propagated from history bookkeeping. -/
inductive SendResult where
  | busy
  | replied (reply : String)
  | error
deriving DecidableEq, Repr

/-- The `.map(msg => ({role, content}))` projection in `sendMessage`. -/
def toAPIMessages (h : List Message) : List (String × String) :=
  h.map (fun m => (m.role, m.content))

/-- `ConversationController.sendMessage(userMessage)`: rejects when
`isProcessing`; otherwise appends the user message, calls the relay,
appends the assistant reply and resolves with it.  `renderOk = false`
models an exception thrown by the DOM rendering inside the second
`addToHistory` (after the message was already pushed); the `finally`
block resets `isProcessing` on every non-busy path.  Timestamps of the
two appended messages are `ts1`/`ts2`. -/
def sendMessage (s : ConvState) (userMessage ts1 ts2 : String)
    (outcome : RelayOutcome) (renderOk : Bool) : SendResult × ConvState :=
  if s.isProcessing then (SendResult.busy, s)
  else
    let h1 := addToHistory s.conversationHistory "user" userMessage ts1
    let reply := callClaudeAPI (toAPIMessages h1) outcome
    let h2 := addToHistory h1 "assistant" reply ts2
    if renderOk then (SendResult.replied reply, ⟨h2, false⟩)
    else (SendResult.error, ⟨h2, false⟩)

/-- C3: while a turn is processing, `sendMessage` is rejected
immediately with the busy error and the whole controller state —
history included — is left exactly as it was. -/
theorem C3_sendMessage_busy (s : ConvState) (u t1 t2 : String)
    (o : RelayOutcome) (renderOk : Bool) (h : s.isProcessing = true) :
    sendMessage s u t1 t2 o renderOk = (SendResult.busy, s) := by
  simp [sendMessage, h]

/-- Witness for C3 at a concrete processing state. -/
theorem C3_witness :
    (ConvState.mk [] true).isProcessing = true ∧
    sendMessage ⟨[], true⟩ "hi" "t1" "t2" (RelayOutcome.ok "r") true =
      (SendResult.busy, ⟨[], true⟩) :=
  ⟨rfl, C3_sendMessage_busy ⟨[], true⟩ "hi" "t1" "t2" (RelayOutcome.ok "r") true rfl⟩

/-- C9: a `sendMessage` call is rejected as busy exactly when the flag
was already set, and at the end of every completed non-busy call —
reply, fallback, or bookkeeping exception alike — `isProcessing` is
`false` again (on a busy rejection the state, including the flag owned
by the outstanding call, is untouched). -/
theorem C9_isProcessing_reset (s : ConvState) (u t1 t2 : String)
    (o : RelayOutcome) (renderOk : Bool) :
    ((sendMessage s u t1 t2 o renderOk).1 = SendResult.busy ↔
      s.isProcessing = true) ∧
    (sendMessage s u t1 t2 o renderOk).2.isProcessing =
      (decide ((sendMessage s u t1 t2 o renderOk).1 = SendResult.busy) &&
        s.isProcessing) := by
  cases hs : s.isProcessing
  · cases renderOk <;> simp [sendMessage, hs]
  · simp [sendMessage, hs]

/-- Every fallback pick is one of the five fixed fallback strings. -/
theorem getFallbackResponse_mem (userMessage : String) (rand : Nat) :
    getFallbackResponse userMessage rand ∈ fallbackResponses := by
  have hlt : rand % fallbackResponses.length < fallbackResponses.length :=
    Nat.mod_lt _ (by simp [fallbackResponses])
  simp only [getFallbackResponse, List.getD_eq_getElem?_getD,
    List.getElem?_eq_getElem hlt, Option.getD_some]
  exact List.getElem_mem hlt

/-- C4: when the chat relay fails, `sendMessage` still resolves (no
throw), its reply is one of the five fixed fallback strings, and
exactly two new messages are appended to the history: the user message
and an assistant message carrying the fallback (stated here below the
trimming bound, so the appends are pure). -/
theorem C4_relay_failure_fallback (s : ConvState) (u t1 t2 : String)
    (rand : Nat) (hp : s.isProcessing = false)
    (hl : s.conversationHistory.length + 2 ≤ maxHistoryMessages) :
    fallbackResponses.length = 5 ∧
    ∃ r, r ∈ fallbackResponses ∧
      sendMessage s u t1 t2 (RelayOutcome.fail rand) true =
        (SendResult.replied r,
         ⟨s.conversationHistory ++ [⟨"user", u, t1⟩, ⟨"assistant", r, t2⟩],
          false⟩) := by
  refine ⟨rfl, ?_⟩
  have hlen1 : ¬ maxHistoryMessages <
      (s.conversationHistory ++ [(⟨"user", u, t1⟩ : Message)]).length := by
    simp only [List.length_append, List.length_cons, List.length_nil]
    omega
  have h1eq : addToHistory s.conversationHistory "user" u t1 =
      s.conversationHistory ++ [⟨"user", u, t1⟩] := by
    simp only [addToHistory]
    rw [if_neg hlen1]
  set r := callClaudeAPI
    (toAPIMessages (s.conversationHistory ++ [⟨"user", u, t1⟩]))
    (RelayOutcome.fail rand) with hr
  have hrmem : r ∈ fallbackResponses := by
    rw [hr]
    simp only [callClaudeAPI]
    exact getFallbackResponse_mem _ _
  have hlen2 : ¬ maxHistoryMessages <
      ((s.conversationHistory ++ [(⟨"user", u, t1⟩ : Message)]) ++
        [(⟨"assistant", r, t2⟩ : Message)]).length := by
    simp only [List.length_append, List.length_cons, List.length_nil]
    omega
  have h2eq : addToHistory (s.conversationHistory ++ [⟨"user", u, t1⟩])
      "assistant" r t2 =
      (s.conversationHistory ++ [⟨"user", u, t1⟩]) ++ [⟨"assistant", r, t2⟩] := by
    simp only [addToHistory]
    rw [if_neg hlen2]
  refine ⟨r, hrmem, ?_⟩
  simp only [sendMessage, hp, Bool.false_eq_true, if_false, h1eq, ← hr, h2eq,
    List.append_assoc, List.cons_append, List.nil_append, if_true]

/-- Witness for C4 at the scenario of the spec: empty history,
`sendMessage "Hello"` with the relay unavailable. -/
theorem C4_witness :
    (ConvState.mk [] false).isProcessing = false ∧
    (ConvState.mk [] false).conversationHistory.length + 2 ≤ maxHistoryMessages ∧
    (fallbackResponses.length = 5 ∧
     ∃ r, r ∈ fallbackResponses ∧
       sendMessage ⟨[], false⟩ "Hello" "t1" "t2" (RelayOutcome.fail 0) true =
         (SendResult.replied r,
          ⟨[⟨"user", "Hello", "t1"⟩, ⟨"assistant", r, "t2"⟩], false⟩)) :=
  ⟨rfl, by decide,
   C4_relay_failure_fallback ⟨[], false⟩ "Hello" "t1" "t2" 0 rfl (by decide)⟩

/-- The emoji/symbol code-point ranges removed by
`TTSController.cleanTextForTTS`: emoticons, misc symbols & pictographs,
transport, regional indicators, misc symbols, dingbats. -/
def isEmojiChar (c : Char) : Bool :=
  (0x1F600 ≤ c.toNat && c.toNat ≤ 0x1F64F) ||
  (0x1F300 ≤ c.toNat && c.toNat ≤ 0x1F5FF) ||
  (0x1F680 ≤ c.toNat && c.toNat ≤ 0x1F6FF) ||
  (0x1F1E0 ≤ c.toNat && c.toNat ≤ 0x1F1FF) ||
  (0x2600 ≤ c.toNat && c.toNat ≤ 0x26FF) ||
  (0x2700 ≤ c.toNat && c.toNat ≤ 0x27BF)

/-- `replace(/\s+/g, ' ')`: each maximal whitespace run becomes one
space.  `inWs` records whether the previous character was part of a
run already replaced. -/
def collapseWsAux (inWs : Bool) : List Char → List Char
  | [] => []
  | c :: rest =>
    if isWsChar c then
      if inWs then collapseWsAux true rest
      else ' ' :: collapseWsAux true rest
    else c :: collapseWsAux false rest

/-- `String.prototype.trim()`: drop whitespace from both ends. -/
def trimWs (l : List Char) : List Char :=
  ((l.dropWhile isWsChar).reverse.dropWhile isWsChar).reverse

/-- `TTSController.cleanTextForTTS(text)`: remove the six emoji/symbol
ranges, collapse whitespace runs to single spaces, trim the ends. -/
def cleanTextForTTS (text : String) : String :=
  String.mk (trimWs (collapseWsAux false
    (text.data.filter (fun c => !isEmojiChar c))))

/-- No two adjacent whitespace characters. -/
def noWsRun : List Char → Bool
  | c1 :: c2 :: rest => !(isWsChar c1 && isWsChar c2) && noWsRun (c2 :: rest)
  | _ => true

/-- The first character, when there is one, is not whitespace. -/
def headNotWs (l : List Char) : Bool :=
  match l.head? with
  | none => true
  | some c => !isWsChar c

/-- Neither end of the list is a whitespace character. -/
def noEdgeWs (l : List Char) : Bool :=
  headNotWs l &&
  (match l.getLast? with
   | none => true
   | some c => !isWsChar c)

/-- Characters of a collapsed list come from the input or are the
single space substituted for a run. -/
theorem mem_collapseWsAux {c : Char} : ∀ (b : Bool) (l : List Char),
    c ∈ collapseWsAux b l → c = ' ' ∨ c ∈ l
  | _, [] => by simp [collapseWsAux]
  | b, x :: rest => by
    simp only [collapseWsAux]
    split
    · cases b with
      | true =>
          intro h
          rcases mem_collapseWsAux true rest h with h' | h'
          · exact Or.inl h'
          · exact Or.inr (List.mem_cons_of_mem _ h')
      | false =>
          intro h
          rcases List.mem_cons.mp h with h' | h'
          · exact Or.inl h'
          · rcases mem_collapseWsAux true rest h' with h'' | h''
            · exact Or.inl h''
            · exact Or.inr (List.mem_cons_of_mem _ h'')
    · intro h
      rcases List.mem_cons.mp h with h' | h'
      · exact Or.inr (h' ▸ List.mem_cons_self _ _)
      · rcases mem_collapseWsAux false rest h' with h'' | h''
        · exact Or.inl h''
        · exact Or.inr (List.mem_cons_of_mem _ h'')

/-- After a collapsed whitespace run, the next emitted character is
not whitespace. -/
theorem headNotWs_collapseWsAux_true : ∀ (l : List Char),
    headNotWs (collapseWsAux true l) = true
  | [] => rfl
  | c :: rest => by
    simp only [collapseWsAux]
    split
    · exact headNotWs_collapseWsAux_true rest
    · simp_all [headNotWs]

/-- Prepending a non-run-forming character preserves `noWsRun`. -/
theorem noWsRun_cons_of_headNotWs (c : Char) (l : List Char)
    (h1 : headNotWs l = true) (h2 : noWsRun l = true) :
    noWsRun (c :: l) = true := by
  cases l with
  | nil => rfl
  | cons x rest => simp_all [noWsRun, headNotWs]

/-- Prepending a non-whitespace character preserves `noWsRun`. -/
theorem noWsRun_cons_of_not_ws (c : Char) (l : List Char)
    (hc : isWsChar c = false) (h2 : noWsRun l = true) :
    noWsRun (c :: l) = true := by
  cases l with
  | nil => rfl
  | cons x rest => simp_all [noWsRun]

/-- Collapsing whitespace runs leaves no two adjacent whitespace
characters. -/
theorem noWsRun_collapseWsAux : ∀ (b : Bool) (l : List Char),
    noWsRun (collapseWsAux b l) = true
  | _, [] => rfl
  | b, c :: rest => by
    simp only [collapseWsAux]
    split
    · cases b with
      | true => exact noWsRun_collapseWsAux true rest
      | false =>
          exact noWsRun_cons_of_headNotWs _ _
            (headNotWs_collapseWsAux_true rest)
            (noWsRun_collapseWsAux true rest)
    · next hc =>
        exact noWsRun_cons_of_not_ws _ _ (by simpa using hc)
          (noWsRun_collapseWsAux false rest)

/-- `noWsRun` passes to the tail. -/
theorem noWsRun_of_cons {c : Char} {l : List Char}
    (h : noWsRun (c :: l) = true) : noWsRun l = true := by
  cases l with
  | nil => rfl
  | cons x rest => simp_all [noWsRun]

/-- `noWsRun` restricts to any left part of an append. -/
theorem noWsRun_append_left : ∀ (l₁ l₂ : List Char),
    noWsRun (l₁ ++ l₂) = true → noWsRun l₁ = true
  | [], _, _ => rfl
  | [_], _, _ => rfl
  | c1 :: c2 :: rest, l₂, h => by
    simp only [List.cons_append, noWsRun, Bool.and_eq_true] at h ⊢
    exact ⟨h.1, noWsRun_append_left (c2 :: rest) l₂ h.2⟩

/-- `noWsRun` survives `dropWhile`. -/
theorem noWsRun_dropWhile (p : Char → Bool) : ∀ (l : List Char),
    noWsRun l = true → noWsRun (l.dropWhile p) = true
  | [], _ => rfl
  | c :: rest, h => by
    rw [List.dropWhile_cons]
    split
    · exact noWsRun_dropWhile p rest (noWsRun_of_cons h)
    · exact h

/-- `trimWs` only removes characters from the ends: the result is a
left part of `l.dropWhile isWsChar`. -/
theorem trimWs_isPrefix (l : List Char) :
    trimWs l <+: l.dropWhile isWsChar := by
  rw [← List.reverse_suffix, trimWs, List.reverse_reverse]
  exact List.dropWhile_suffix _

/-- The head of `dropWhile isWsChar` is not whitespace. -/
theorem headNotWs_dropWhile (l : List Char) :
    headNotWs (l.dropWhile isWsChar) = true := by
  have h := List.head?_dropWhile_not isWsChar l
  unfold headNotWs
  cases hh : (l.dropWhile isWsChar).head? with
  | none => rfl
  | some c => simp only [hh] at h; simp [h]

/-- A non-empty left part shares its head. -/
theorem head?_of_isPrefix {α : Type} {l₁ l₂ : List α}
    (h : l₁ <+: l₂) (hne : l₁ ≠ []) : l₁.head? = l₂.head? := by
  rcases h with ⟨t, rfl⟩
  cases l₁ with
  | nil => exact absurd rfl hne
  | cons x rest => rfl

/-- Characters of the trimmed list come from the input. -/
theorem mem_trimWs {c : Char} {l : List Char} (h : c ∈ trimWs l) : c ∈ l := by
  rw [trimWs, List.mem_reverse] at h
  have h1 := (List.dropWhile_sublist isWsChar).subset h
  rw [List.mem_reverse] at h1
  exact (List.dropWhile_sublist isWsChar).subset h1

/-- C6: the text-cleaning transform of `speak` is a function (hence
deterministic); on every input it removes all characters of the six
emoji/symbol ranges, leaves no two adjacent whitespace characters
(runs are collapsed to single spaces), and leaves no whitespace at
either end; and on the spec scenario it sends
`"Test 🎉 message!!"` to `"Test message!!"`. -/
theorem C6_cleanTextForTTS :
    (∀ text : String,
      (∀ c ∈ (cleanTextForTTS text).data, isEmojiChar c = false) ∧
      noWsRun (cleanTextForTTS text).data = true ∧
      noEdgeWs (cleanTextForTTS text).data = true) ∧
    cleanTextForTTS "Test 🎉 message!!" = "Test message!!" := by
  constructor
  · intro text
    refine ⟨?_, ?_, ?_⟩
    · intro c hc
      have hc' : c ∈ trimWs (collapseWsAux false
          (text.data.filter (fun c => !isEmojiChar c))) := hc
      have h1 := mem_trimWs hc'
      rcases mem_collapseWsAux false _ h1 with h2 | h2
      · subst h2; decide
      · have := List.mem_filter.mp h2
        simpa using this.2
    · show noWsRun (trimWs (collapseWsAux false _)) = true
      have hx : noWsRun ((collapseWsAux false
          (text.data.filter (fun c => !isEmojiChar c))).dropWhile isWsChar)
          = true :=
        noWsRun_dropWhile _ _ (noWsRun_collapseWsAux false _)
      rcases trimWs_isPrefix (collapseWsAux false
          (text.data.filter (fun c => !isEmojiChar c))) with ⟨t, ht⟩
      exact noWsRun_append_left _ t (ht ▸ hx)
    · show noEdgeWs (trimWs (collapseWsAux false _)) = true
      set y := collapseWsAux false
        (text.data.filter (fun c => !isEmojiChar c)) with hy
      rw [noEdgeWs, Bool.and_eq_true]
      constructor
      · by_cases hne : trimWs y = []
        · rw [hne]; rfl
        · rw [headNotWs, head?_of_isPrefix (trimWs_isPrefix y) hne,
            ← headNotWs]
          exact headNotWs_dropWhile y
      · rw [trimWs, List.getLast?_reverse]
        have h := headNotWs_dropWhile ((y.dropWhile isWsChar).reverse)
        rw [headNotWs] at h
        exact h
  · decide

/-- The three speech producers selectable in `TTSController`
(`currentProvider`): two remote vendors and the local built-in
browser speech. -/
inductive Producer where
  | elevenlabs
  | openai
  | browser
deriving DecidableEq, Repr

/-- Observable events of one `speak` call: a producer being invoked
with the text it was dispatched, and the lifecycle callbacks. -/
inductive TTSEvent where
  | producerCall (p : Producer) (text : String)
  | onStart
  | onEnd
deriving DecidableEq, Repr

/-- The trace of one `speak` call and whether the call rejected. -/
structure SpeakOutcome where
  events : List TTSEvent
  threw : Bool
deriving DecidableEq, Repr

/-- `TTSController.speak(text, onStart, onEnd)` as an event-trace
function.  The oracles say whether the attempted producer fails
(throws / non-2xx / speech error); a successful producer run is
abstracted as its invocation followed by the `onStart`/`onEnd`
playback callbacks.  Control flow from the source: clean the text,
dispatch on `currentProvider`; on failure of a non-browser provider
retry once with the browser producer (uncaught, so its failure
rejects the whole call); on failure of the browser provider call
`onAudioError`, which invokes the end callback and swallows the
error. -/
def speakModel (provider : Producer) (text : String)
    (primaryOk localOk : Bool) : SpeakOutcome :=
  let clean := cleanTextForTTS text
  match provider, primaryOk with
  | Producer.browser, true =>
      ⟨[TTSEvent.producerCall Producer.browser clean, TTSEvent.onStart,
        TTSEvent.onEnd], false⟩
  | Producer.browser, false =>
      ⟨[TTSEvent.producerCall Producer.browser clean, TTSEvent.onEnd], false⟩
  | p, true =>
      ⟨[TTSEvent.producerCall p clean, TTSEvent.onStart, TTSEvent.onEnd],
        false⟩
  | p, false =>
      if localOk then
        ⟨[TTSEvent.producerCall p clean,
          TTSEvent.producerCall Producer.browser clean, TTSEvent.onStart,
          TTSEvent.onEnd], false⟩
      else
        ⟨[TTSEvent.producerCall p clean,
          TTSEvent.producerCall Producer.browser clean], true⟩

/-- Recognizer: any producer invocation. -/
def isProducerCall : TTSEvent → Bool
  | TTSEvent.producerCall _ _ => true
  | _ => false

/-- Recognizer: an invocation of the local browser producer. -/
def isBrowserCall : TTSEvent → Bool
  | TTSEvent.producerCall Producer.browser _ => true
  | _ => false

/-- Recognizer: the `onStart` callback. -/
def isOnStart : TTSEvent → Bool
  | TTSEvent.onStart => true
  | _ => false

/-- Recognizer: the `onEnd` callback. -/
def isOnEnd : TTSEvent → Bool
  | TTSEvent.onEnd => true
  | _ => false

/-- C5: when the primary producer is not the browser and it fails,
`speak` invokes the local browser producer exactly once and exactly
two producers in total; `onStart` fires at most once; and if the
local producer also fails the call rejects (error path) with no
`onEnd` callback. -/
theorem C5_speak_fallback (provider : Producer) (text : String)
    (localOk : Bool) (hp : provider ≠ Producer.browser) :
    ((speakModel provider text false localOk).events.countP isBrowserCall
      = 1) ∧
    ((speakModel provider text false localOk).events.countP isProducerCall
      = 2) ∧
    ((speakModel provider text false localOk).events.countP isOnStart ≤ 1) ∧
    (localOk = false →
      (speakModel provider text false localOk).threw = true ∧
      (speakModel provider text false localOk).events.countP isOnEnd = 0) := by
  cases provider
  · cases localOk <;>
      simp [speakModel, isBrowserCall, isProducerCall, isOnStart, isOnEnd,
        List.countP_cons, List.countP_nil]
  · cases localOk <;>
      simp [speakModel, isBrowserCall, isProducerCall, isOnStart, isOnEnd,
        List.countP_cons, List.countP_nil]
  · exact absurd rfl hp

/-- Witness for C5: ElevenLabs primary fails, browser fallback also
fails. -/
theorem C5_witness :
    (Producer.elevenlabs ≠ Producer.browser) ∧
    (((speakModel Producer.elevenlabs "hi" false false).events.countP
        isBrowserCall = 1) ∧
     ((speakModel Producer.elevenlabs "hi" false false).events.countP
        isProducerCall = 2) ∧
     ((speakModel Producer.elevenlabs "hi" false false).events.countP
        isOnStart ≤ 1) ∧
     (false = false →
       (speakModel Producer.elevenlabs "hi" false false).threw = true ∧
       (speakModel Producer.elevenlabs "hi" false false).events.countP
         isOnEnd = 0)) :=
  ⟨by decide, C5_speak_fallback Producer.elevenlabs "hi" false (by decide)⟩

/-- The `TTSController` state acted on by `stop()`: playback flag,
audio position, current utterance, whether an end callback is
registered (`speak` sets `onEndCallback` and nothing ever clears it),
and how many times the end callback has been invoked — the observable
side effect of claim C7. -/
structure TTSState where
  isPlaying : Bool
  currentTime : Nat
  hasUtterance : Bool
  hasEndCallback : Bool
  endCallbackRuns : Nat
deriving DecidableEq, Repr

/-- `TTSController.stop()`: pause the audio player and reset
`currentTime` to 0, cancel browser speech, clear `isPlaying` and
`currentUtterance`, then invoke `onEndCallback` whenever one is
registered. -/
def stop (s : TTSState) : TTSState :=
  { s with
    isPlaying := false
    currentTime := 0
    hasUtterance := false
    endCallbackRuns :=
      if s.hasEndCallback then s.endCallbackRuns + 1 else s.endCallbackRuns }

/-- C7 counterexample: with an end callback registered (as after any
`speak`), a second `stop()` invokes `onEnd` again, so two calls do
not produce the end state of one call. -/
theorem C7_counterexample :
    stop (stop ⟨true, 5, true, true, 0⟩) ≠ stop ⟨true, 5, true, true, 0⟩ ∧
    (stop (stop ⟨true, 5, true, true, 0⟩)).endCallbackRuns = 2 ∧
    (stop ⟨true, 5, true, true, 0⟩).endCallbackRuns = 1 := by decide

/-- C7 (amended): `stop()` is idempotent on the playback state — a
second call leaves `isPlaying`, `currentTime` and the utterance
exactly as the first left them (cancelled, position 0) — but the end
callback is invoked on every call on which one is registered, not
only the first: the two-call end state equals the one-call end state
exactly when no end callback is registered. -/
theorem C7_stop_amended (s : TTSState) :
    (stop (stop s)).isPlaying = (stop s).isPlaying ∧
    (stop (stop s)).currentTime = (stop s).currentTime ∧
    (stop (stop s)).hasUtterance = (stop s).hasUtterance ∧
    (stop s).isPlaying = false ∧ (stop s).currentTime = 0 ∧
    (stop s).hasUtterance = false ∧
    (stop s).endCallbackRuns =
      s.endCallbackRuns + (if s.hasEndCallback then 1 else 0) ∧
    ((stop (stop s)).endCallbackRuns = (stop s).endCallbackRuns ↔
      s.hasEndCallback = false) := by
  cases s with
  | mk ip ct hu hcb runs => cases hcb <;> simp [stop]

/-- Outcome oracle for one upstream vendor call made by the backend:
a successful body, a non-2xx vendor status with its extracted
message, or a transport error thrown while contacting the vendor. -/
inductive VendorResult where
  | ok (body : String)
  | errorStatus (status : Nat) (msg : String)
  | networkError
deriving DecidableEq, Repr

/-- `MAX_RESPONSE_WORDS` from the backend server. -/
def MAX_RESPONSE_WORDS : Nat := 15

/-- `POST /api/chat` as (status, body-summary): rejects with 400 only
when `!messages || !Array.isArray(messages)` (modelled as `none`);
otherwise relays the vendor outcome, truncating a successful reply to
`MAX_RESPONSE_WORDS` words, mapping vendor errors to their status and
transport errors to 500. -/
def chatEndpoint (messages : Option (List (String × String)))
    (vendor : VendorResult) : Nat × String :=
  match messages with
  | none => (400, "Messages array is required")
  | some _ =>
      match vendor with
      | VendorResult.ok body =>
          (200, truncateToMaxWords body MAX_RESPONSE_WORDS)
      | VendorResult.errorStatus status msg => (status, msg)
      | VendorResult.networkError => (500, "Internal server error")

/-- `POST /api/tts/elevenlabs` as (status, body-summary): rejects
with 400 when `!text` (absent, modelled `none`, or the empty
string); otherwise relays the vendor outcome. -/
def ttsEndpoint (text : Option String) (vendor : VendorResult) :
    Nat × String :=
  match text with
  | none => (400, "Text is required")
  | some t =>
      if t = "" then (400, "Text is required")
      else
        match vendor with
        | VendorResult.ok body => (200, body)
        | VendorResult.errorStatus status msg => (status, msg)
        | VendorResult.networkError => (500, "Internal server error")

/-- C8 counterexample: an empty messages array is truthy and is an
array, so `/api/chat` does not reject it — the request reaches the
vendor and succeeds, instead of the claimed 400. -/
theorem C8_counterexample :
    chatEndpoint (some []) (VendorResult.ok "hi") = (200, "hi") ∧
    (chatEndpoint (some []) (VendorResult.ok "hi")).1 ≠ 400 := by decide

/-- C8 (amended): `/api/chat` responds 400 with its field-specific
message exactly when the messages field is missing or not an array
(an empty array passes validation), `/api/tts/elevenlabs` responds
400 exactly when the text is missing or empty; in both cases the 400
is produced identically for every vendor outcome, i.e. without
contacting the vendor, and requests that pass validation are relayed. -/
theorem C8_validation_amended :
    (∀ v : VendorResult,
      chatEndpoint none v = (400, "Messages array is required")) ∧
    (∀ v : VendorResult, ttsEndpoint none v = (400, "Text is required")) ∧
    (∀ v : VendorResult,
      ttsEndpoint (some "") v = (400, "Text is required")) ∧
    (∀ (msgs : List (String × String)) (body : String),
      chatEndpoint (some msgs) (VendorResult.ok body) =
        (200, truncateToMaxWords body MAX_RESPONSE_WORDS)) ∧
    (∀ (t : String) (body : String), t ≠ "" →
      ttsEndpoint (some t) (VendorResult.ok body) = (200, body)) := by
  refine ⟨fun v => rfl, fun v => rfl, fun v => rfl, fun msgs body => rfl,
    fun t body ht => ?_⟩
  simp only [ttsEndpoint]
  rw [if_neg ht]

/-- Witness for C8 (amended) at concrete requests. -/
theorem C8_witness :
    ("x" ≠ "") ∧ ttsEndpoint (some "x") (VendorResult.ok "b") = (200, "b") ∧
    chatEndpoint none VendorResult.networkError =
      (400, "Messages array is required") :=
  ⟨by decide, C8_validation_amended.2.2.2.2 "x" "b" (by decide),
    C8_validation_amended.1 VendorResult.networkError⟩

/-- The `HeyGenController` state acted on by `speak(text)`, with
counters for the observable side effects: relay requests issued,
`onSpeakingStart` invocations and `onError` invocations. -/
structure HeyGenState where
  isConnected : Bool
  sessionId : Option String
  networkCalls : Nat
  onSpeakingStartRuns : Nat
  onErrorRuns : Nat
deriving DecidableEq, Repr

/-- `HeyGenController.isAvailable()`:
`isConnected && sessionId !== null`. -/
def isAvailable (s : HeyGenState) : Bool :=
  s.isConnected && s.sessionId.isSome

/-- `HeyGenController.speak(text)`: returns `false` with no relay
request when `!isConnected || !sessionId`; otherwise issues the relay
request (`relayOk` oracle) and either triggers `onSpeakingStart` and
returns `true`, or — any failure being caught — triggers `onError`
and returns `false`.  Every path returns; nothing escapes. -/
def hgSpeak (s : HeyGenState) (text : String) (relayOk : Bool) :
    Bool × HeyGenState :=
  if !s.isConnected || s.sessionId.isNone then (false, s)
  else if relayOk then
    (true, { s with networkCalls := s.networkCalls + 1,
                    onSpeakingStartRuns := s.onSpeakingStartRuns + 1 })
  else
    (false, { s with networkCalls := s.networkCalls + 1,
                     onErrorRuns := s.onErrorRuns + 1 })

/-- C10: `HeyGenController.speak` is total (never throws) and fully
characterized: it succeeds exactly when the avatar is available and
the relay succeeds; when unavailable it makes no relay request and
changes nothing; it fires `onSpeakingStart` exactly on success and
`onError` exactly on a relay failure, and never touches the
connection fields. -/
theorem C10_hgSpeak_total (s : HeyGenState) (text : String)
    (relayOk : Bool) :
    ((hgSpeak s text relayOk).1 = (isAvailable s && relayOk)) ∧
    ((hgSpeak s text relayOk).2.isConnected = s.isConnected) ∧
    ((hgSpeak s text relayOk).2.sessionId = s.sessionId) ∧
    ((hgSpeak s text relayOk).2.networkCalls =
      s.networkCalls + (if isAvailable s then 1 else 0)) ∧
    ((hgSpeak s text relayOk).2.onSpeakingStartRuns =
      s.onSpeakingStartRuns + (if isAvailable s && relayOk then 1 else 0)) ∧
    ((hgSpeak s text relayOk).2.onErrorRuns =
      s.onErrorRuns + (if isAvailable s && !relayOk then 1 else 0)) := by
  cases s with
  | mk conn sid nc ss er =>
      cases conn <;> cases sid <;> cases relayOk <;>
        simp [hgSpeak, isAvailable]
